import Mathlib

/-!
# Verification of the route-preprocessing pipeline (`calculate_routes.py`)

A shallow embedding of the core of the repository's route computation:
point decoding, nearest-node resolution (cached and uncached variants),
shortest-path computation over a road network, per-item error isolation in
`compute_single_route`, the batch scheduler, the transition classifier, and
the time-window record filter from `main`.

Conventions of the embedding:
* Python exceptions are values of `PyErr`; fallible steps return
  `Except PyErr _` and the `try`/`except` boundary of
  `compute_single_route` converts any error into `none`.
* Python dictionaries holding string keys and string values are modelled
  as association lists (`Activity`), looked up by first match, as CPython
  dict access behaves for these programs.
* Machine floats are modelled as rationals (`ℚ`); the inputs the program
  manipulates are short decimal literals for which float arithmetic here
  (parsing, subtraction, comparison) is exact in the model's sense.
  Rational arithmetic is written through `mkRat`-based helpers (`qadd`,
  `qsub`, `qmul`) so that closed computations reduce in the kernel.
* Python string operations (`split`, `replace`, `lower`, slicing,
  lexicographic comparison) are modelled structurally on the character
  lists underlying `String`.
* The external nearest-neighbour search `ox.distance.nearest_nodes` is
  modelled as the argmin of coordinate distance over the network's nodes
  (first node wins ties), and `nx.shortest_path(..., weight = length)` as
  a minimum-total-edge-length simple path (first minimal path wins ties);
  both are deterministic, as the external routines are.
* To observe how often the nearest-neighbour search executes, the
  embedding threads a `CacheState` carrying the cache dictionary and a
  count of performed searches through `compute_single_route`, mirroring
  the `nearest_node_cache` parameter of the Python code.
-/

set_option maxRecDepth 8000

/-- Kinds of Python exceptions that the modelled code can raise. -/
inductive PyErr where
  | keyError
  | indexError
  | valueError
  | noPath
  | emptyNetwork
deriving DecidableEq, Repr

deriving instance DecidableEq for Except

/-- A Python dict with string keys and string values, e.g. one `activity`
record, modelled as an association list looked up by first match. -/
abbrev Activity := List (String × String)

/-- First-match lookup in an association list (CPython dict access for the
string-keyed records this program builds). -/
def dictLookup (a : Activity) (k : String) : Option String :=
  match a with
  | [] => none
  | (k', v) :: rest => if k' = k then some v else dictLookup rest k

/-- `activity[k]`: dict access raising `KeyError` when the key is absent. -/
def dictGet (a : Activity) (k : String) : Except PyErr String :=
  match dictLookup a k with
  | some v => .ok v
  | none => .error .keyError

/-- `l[i]` on a Python list/tuple: raises `IndexError` out of range. -/
def listGetE (l : List ℚ) (i : ℕ) : Except PyErr ℚ :=
  match l.get? i with
  | some q => .ok q
  | none => .error .indexError

/-! ## Exact rational arithmetic helpers

Semantically these are `+`, `-`, `*` on `ℚ`, spelled through `mkRat` and
`num`/`den` so that closed instances reduce inside the kernel. -/

/-- Rational addition via cross multiplication. -/
def qadd (a b : ℚ) : ℚ := mkRat (a.num * (b.den : ℤ) + b.num * (a.den : ℤ)) (a.den * b.den)

/-- Rational subtraction via cross multiplication. -/
def qsub (a b : ℚ) : ℚ := mkRat (a.num * (b.den : ℤ) - b.num * (a.den : ℤ)) (a.den * b.den)

/-- Rational multiplication. -/
def qmul (a b : ℚ) : ℚ := mkRat (a.num * b.num) (a.den * b.den)

/-- Scale by a (possibly negative) power of ten. -/
def mulPow10 (m : ℚ) (e : ℤ) : ℚ :=
  match e with
  | .ofNat k => qmul m (mkRat ((10 : ℕ) ^ k : ℕ) 1)
  | .negSucc k => qmul m (mkRat 1 ((10 : ℕ) ^ (k + 1)))

/-! ## Python string primitives on character lists -/

/-- Python `s.split(sep)` for a single-character separator, given as the
predicate recognising it (also used for the `e`/`E` exponent split). -/
def splitBy (p : Char → Bool) : List Char → List (List Char)
  | [] => [[]]
  | c :: rest =>
    if p c then [] :: splitBy p rest
    else
      match splitBy p rest with
      | [] => [[c]]
      | g :: gs => (c :: g) :: gs

/-- Python lexicographic string comparison `s < t` by code point. -/
def pyStrLt : List Char → List Char → Bool
  | [], [] => false
  | [], _ :: _ => true
  | _ :: _, [] => false
  | c :: cs, d :: ds => if c = d then pyStrLt cs ds else decide (c < d)

/-- ASCII lowering of one character, as Python `str.lower` acts on the
ASCII identifiers this program compares. -/
def lowerChar (c : Char) : Char :=
  if 'A' ≤ c ∧ c ≤ 'Z' then Char.ofNat (c.toNat + 32) else c

/-- Python `str.lower` over the characters of a string. -/
def pyLower (cs : List Char) : List Char := cs.map lowerChar

/-- Does `needle` occur as a prefix of `hay`? -/
def prefixMatch : List Char → List Char → Bool
  | [], _ => true
  | _ :: _, [] => false
  | c :: cs, d :: ds => (c = d) && prefixMatch cs ds

/-- Python `needle in hay` substring containment. -/
def subMatch (needle : List Char) : List Char → Bool
  | [] => prefixMatch needle []
  | d :: ds => prefixMatch needle (d :: ds) || subMatch needle ds

/-! ## The float parser

Models the Python builtin `float` on decimal literals (optional sign,
integer and/or fractional digits, optional decimal exponent), the forms
occurring in the program's `label:lat,lon` point encoding.  Special forms
(`inf`, `nan`, underscores, surrounding whitespace) are outside the model. -/

/-- Numeric value of a digit string (assumes digits). -/
def digitsVal (cs : List Char) : ℕ :=
  cs.foldl (fun n c => 10 * n + (c.toNat - 48)) 0

/-- A nonempty, all-digit string. -/
def allDigits (cs : List Char) : Bool :=
  !cs.isEmpty && cs.all Char.isDigit

/-- Strip one optional leading sign, returning the sign as a rational. -/
def takeSignQ : List Char → ℚ × List Char
  | '-' :: rest => (mkRat (-1) 1, rest)
  | '+' :: rest => (1, rest)
  | cs => (1, cs)

/-- Parse the mantissa of a Python float literal: optional sign, then
digits with at most one decimal point and at least one digit in total. -/
def parseMantissa (cs : List Char) : Option ℚ :=
  let p := takeSignQ cs
  match splitBy (fun c => c == '.') p.2 with
  | [i] => if allDigits i then some (qmul p.1 (mkRat (digitsVal i) 1)) else none
  | [i, f] =>
    if i.all Char.isDigit && f.all Char.isDigit && decide (0 < i.length + f.length) then
      some (qmul p.1 (mkRat ((digitsVal i * 10 ^ f.length + digitsVal f : ℕ) : ℤ) (10 ^ f.length)))
    else none
  | _ => none

/-- Parse the exponent of a Python float literal. -/
def parseExpPart : List Char → Option ℤ
  | '-' :: rest => if allDigits rest then some (-(digitsVal rest : ℤ)) else none
  | '+' :: rest => if allDigits rest then some (digitsVal rest : ℤ) else none
  | cs => if allDigits cs then some (digitsVal cs : ℤ) else none

/-- The Python builtin `float` on a decimal literal, as a rational. -/
def pyFloat (cs : List Char) : Option ℚ :=
  match splitBy (fun c => c == 'e' || c == 'E') cs with
  | [m] => parseMantissa m
  | [m, ex] =>
    match parseMantissa m, parseExpPart ex with
    | some mv, some ev => some (mulPow10 mv ev)
    | _, _ => none
  | _ => none

/-- `float(c)` raising `ValueError` on failure. -/
def pyFloatE (c : List Char) : Except PyErr ℚ :=
  match pyFloat c with
  | some q => .ok q
  | none => .error .valueError

/-- `tuple(map(float, cs))`: parse each component left to right, raising at
the first failure. -/
def floatList : List (List Char) → Except PyErr (List ℚ)
  | [] => .ok []
  | c :: rest =>
    match pyFloatE c with
    | .error er => .error er
    | .ok q =>
      match floatList rest with
      | .error er => .error er
      | .ok qs => .ok (q :: qs)

/-- The code's point decoding (`calculate_routes.py` line 43):
`tuple(map(float, s.split(':')[1].split(',')))`.  Splits on every colon and
takes the component at index 1, then splits that on commas and parses every
component as a float.  There is no arity check on the comma split. -/
def decodePointCode (s : String) : Except PyErr (List ℚ) :=
  match (splitBy (fun c => c == ':') s.data).get? 1 with
  | none => .error .indexError
  | some rest => floatList (splitBy (fun c => c == ',') rest)

/-- Join character-list groups with a colon (for re-assembling the
remainder after the first colon). -/
def joinColon : List (List Char) → List Char
  | [] => []
  | [g] => g
  | g :: g2 :: gs => g ++ ':' :: joinColon (g2 :: gs)

/-- Following the spec's words (§4.1), for comparison with
`decodePointCode`: split on the FIRST colon into a label and the whole
remainder, then split the remainder on commas; the comma split must have
exactly two components and both must parse as finite numbers. -/
def decodePointSpec (s : String) : Option (String × ℚ × ℚ) :=
  match splitBy (fun c => c == ':') s.data with
  | [] => none
  | [_] => none
  | lab :: rest =>
    match splitBy (fun c => c == ',') (joinColon rest) with
    | [a, b] =>
      match pyFloat a, pyFloat b with
      | some x, some y => some (String.mk lab, x, y)
      | _, _ => none
    | _ => none

/-! ## Road networks, nearest-node resolution and shortest paths -/

/-- One node of a road network: an OSM id with its latitude (`y`) and
longitude (`x`) attributes, as osmnx stores them. -/
structure Node where
  id : ℕ
  y : ℚ
  x : ℚ
deriving DecidableEq, Repr

/-- One directed weighted edge; `length` is the physical length used as
the shortest-path weight. -/
structure Edge where
  src : ℕ
  dst : ℕ
  length : ℚ
deriving DecidableEq, Repr

/-- A road network graph (walk or drive), opaque and read-only for the
whole run. -/
structure Graph where
  nodes : List Node
  edges : List Edge
deriving DecidableEq, Repr

/-- Squared coordinate distance from a query point to a node, the argmin
objective of the modelled nearest-neighbour search. -/
def sqDist (lat lon : ℚ) (n : Node) : ℚ :=
  qadd (qmul (qsub n.y lat) (qsub n.y lat)) (qmul (qsub n.x lon) (qsub n.x lon))

/-- Scan for the closest node, keeping the earlier node on ties. -/
def nearestScan (lat lon : ℚ) : Node → List Node → Node
  | best, [] => best
  | best, n :: rest =>
    nearestScan lat lon (if sqDist lat lon n < sqDist lat lon best then n else best) rest

/-- Models the external `ox.distance.nearest_nodes(G, X = lon, Y = lat)`:
the id of the node whose coordinates minimise the distance to the query
point (first node wins ties); the external search raises when the network
has no nodes at all. -/
def nearest_nodes (G : Graph) (lat lon : ℚ) : Option ℕ :=
  match G.nodes with
  | [] => none
  | n :: rest => some (nearestScan lat lon n rest).id

/-- The `nearest_node_cache` dict of the Python code, together with an
instrumentation counter recording how often the underlying
nearest-neighbour search has executed. -/
structure CacheState where
  cache : List ((ℚ × ℚ) × ℕ)
  searches : ℕ
deriving DecidableEq, Repr

/-- First-match lookup in the nearest-node cache (dict keyed by the exact
coordinate pair). -/
def cacheLookup (c : List ((ℚ × ℚ) × ℕ)) (k : ℚ × ℚ) : Option ℕ :=
  match c with
  | [] => none
  | (k', n) :: rest => if k' = k then some n else cacheLookup rest k

/-- `cached_nearest_node` (`calculate_routes.py` lines 12-24): consult the
cache under the exact `(lat, lon)` key; on a miss run the search, store
and return the result.  This helper exists in the source but the calls to
it inside `compute_single_route` are commented out (lines 51-52). -/
def cached_nearest_node (G : Graph) (lat lon : ℚ) (st : CacheState) : Option ℕ × CacheState :=
  match cacheLookup st.cache (lat, lon) with
  | some n => (some n, st)
  | none =>
    match nearest_nodes G lat lon with
    | some n => (some n, ⟨((lat, lon), n) :: st.cache, st.searches + 1⟩)
    | none => (none, ⟨st.cache, st.searches + 1⟩)

/-- `get_nearest_node` (`calculate_routes.py` lines 26-31) with the search
counter threaded: always runs the nearest-neighbour search, never reads or
writes the cache. -/
def get_nearest_nodeCount (G : Graph) (lat lon : ℚ) (st : CacheState) : Option ℕ × CacheState :=
  (nearest_nodes G lat lon, ⟨st.cache, st.searches + 1⟩)

/-- `get_nearest_node` as a pure function of the network and the point. -/
def get_nearest_node (G : Graph) (lat lon : ℚ) : Option ℕ :=
  nearest_nodes G lat lon

/-- Successor node ids of `u` along directed edges. -/
def neighborList (G : Graph) (u : ℕ) : List ℕ :=
  G.edges.filterMap (fun e => if e.src = u then some e.dst else none)

/-- Minimum edge length among the (possibly parallel) edges from `u` to
`v`, as networkx uses for a weighted MultiDiGraph; `none` when no edge. -/
def edgeWeight (G : Graph) (u v : ℕ) : Option ℚ :=
  (G.edges.filterMap (fun e => if e.src = u ∧ e.dst = v then some e.length else none)).foldr
    (fun w acc =>
      match acc with
      | none => some w
      | some w' => some (if w ≤ w' then w else w'))
    none

/-- Total weight of a node sequence: `none` when some consecutive pair is
not an edge, `some 0` for a single node. -/
def pathWeight (G : Graph) : List ℕ → Option ℚ
  | [] => none
  | [_] => some 0
  | u :: v :: rest =>
    match edgeWeight G u v, pathWeight G (v :: rest) with
    | some w, some rw => some (qadd w rw)
    | _, _ => none

/-- Order on optional weights with `none` as infinity (an absent edge
makes a sequence infinitely bad). -/
def weightLe : Option ℚ → Option ℚ → Bool
  | _, none => true
  | none, some _ => false
  | some a, some b => decide (a ≤ b)

/-- All simple paths from `u` to `t` along graph edges, avoiding
`visited`, of at most `fuel` nodes.  With `fuel` at least the node count
plus one this enumerates every simple edge path between graph nodes. -/
def simplePathsAux (G : Graph) (t : ℕ) : ℕ → ℕ → List ℕ → List (List ℕ)
  | 0, _, _ => []
  | fuel + 1, u, visited =>
    if u = t then [[t]]
    else
      ((neighborList G u).filter (fun v => decide (v ∉ visited))).foldr
        (fun v acc => (simplePathsAux G t fuel v (u :: visited)).map (fun p => u :: p) ++ acc)
        []

/-- First path of minimal weight in a list of candidate paths. -/
def minPath (w : List ℕ → Option ℚ) : List (List ℕ) → Option (List ℕ)
  | [] => none
  | p :: rest =>
    match minPath w rest with
    | none => some p
    | some q => some (if weightLe (w p) (w q) then p else q)

/-- Models `nx.shortest_path(G, s, t, weight = length)`: a
minimum-total-edge-length path from `s` to `t`, or `none` when no path
exists (the `NetworkXNoPath` / `NodeNotFound` exceptions). -/
def shortest_path (G : Graph) (s t : ℕ) : Option (List ℕ) :=
  minPath (pathWeight G) (simplePathsAux G t (G.nodes.length + 1) s [])

/-- First node carrying a given id (`G.nodes[n]` attribute access). -/
def findNodeIn : List Node → ℕ → Option Node
  | [], _ => none
  | n :: rest, i => if n.id = i then some n else findNodeIn rest i

/-- `[(G.nodes[n]['y'], G.nodes[n]['x']) for n in route]` (line 63):
the `(lat, lon)` coordinates of the nodes along the path, raising
`KeyError` if a node id is not in the graph's node attribute map. -/
def routeCoords (G : Graph) : List ℕ → Except PyErr (List (ℚ × ℚ))
  | [] => .ok []
  | n :: rest =>
    match findNodeIn G.nodes n with
    | none => .error .keyError
    | some nd =>
      match routeCoords G rest with
      | .error er => .error er
      | .ok cs => .ok ((nd.y, nd.x) :: cs)

/-! ## The route computer (`compute_single_route`, lines 36-76) -/

/-- A computed route, the dict returned on success (lines 65-71). -/
structure Route where
  type : String
  time : String
  start : String
  «end» : String
  coords : List (ℚ × ℚ)
deriving DecidableEq, Repr

/-- Sequencing of fallible Python steps: an uncaught exception propagates
past the rest of the statement. -/
def ebind {α β : Type} (x : Except PyErr α) (f : α → Except PyErr β) : Except PyErr β :=
  match x with
  | .error er => .error er
  | .ok v => f v

/-- The parsing prefix of `compute_single_route` in source order: fetch
and decode `activity['start']` (line 43), fetch and decode
`activity['end']` (line 44), fetch `activity['type']` (line 47). -/
def parsePhase (activity : Activity) :
    Except PyErr (String × List ℚ × String × List ℚ × String) :=
  ebind (dictGet activity "start") (fun s =>
    ebind (decodePointCode s) (fun sc =>
      ebind (dictGet activity "end") (fun e =>
        ebind (decodePointCode e) (fun ec =>
          ebind (dictGet activity "type") (fun t =>
            .ok (s, sc, e, ec, t))))))

/-- Mode selection (lines 47-48): the walk graph iff `'walking'` occurs in
the lowercased declared type, otherwise the drive graph. -/
def pickGraph (t : String) (walk_graph drive_graph : Graph) : Graph :=
  if subMatch "walking".data (pyLower t.data) then walk_graph else drive_graph

/-- The tail of `compute_single_route` after both endpoints have been
resolved: compute the shortest path (line 60), materialise the coordinate
list (line 63), fetch `activity['time']` and build the result dict (lines
65-71); any raised error becomes `none` at the `except` boundary. -/
def finishRoute (G : Graph) (activity : Activity) (s e t : String)
    (start_node end_node : ℕ) : Option Route :=
  match shortest_path G start_node end_node with
  | none => none
  | some route =>
    match routeCoords G route with
    | .error _ => none
    | .ok route_coords =>
      match dictGet activity "time" with
      | .error _ => none
      | .ok tm => some { type := t, time := tm, start := s, «end» := e, coords := route_coords }

/-- Line 54: index the decoded end coordinates and resolve the end node
with the uncached `get_nearest_node`, then finish the route. -/
def resolveEndPhase (G : Graph) (activity : Activity) (s e t : String) (ec : List ℚ)
    (start_node : ℕ) (st1 : CacheState) : Option Route × CacheState :=
  match listGetE ec 0, listGetE ec 1 with
  | .ok eLat, .ok eLon =>
    (match get_nearest_nodeCount G eLat eLon st1 with
     | (some end_node, st2) => (finishRoute G activity s e t start_node end_node, st2)
     | (none, st2) => (none, st2))
  | _, _ => (none, st1)

/-- Line 53: index the decoded start coordinates and resolve the start
node with the uncached `get_nearest_node` (the `cached_nearest_node`
calls of lines 51-52 are commented out in the source). -/
def resolveStartPhase (G : Graph) (activity : Activity) (s e t : String) (sc ec : List ℚ)
    (st : CacheState) : Option Route × CacheState :=
  match listGetE sc 0, listGetE sc 1 with
  | .ok sLat, .ok sLon =>
    (match get_nearest_nodeCount G sLat sLon st with
     | (some start_node, st1) => resolveEndPhase G activity s e t ec start_node st1
     | (none, st1) => (none, st1))
  | _, _ => (none, st)

/-- `compute_single_route` (lines 36-76) with the nearest-node search
counter threaded.  Mirrors the source: parse both endpoints and the type,
pick the graph, resolve both endpoints with the uncached
`get_nearest_node`, compute the shortest path, materialise the
coordinates, and build the result dict; the enclosing `try`/`except`
converts any raised error into `none` while leaving the cache state as it
stood at the raise. -/
def computeSingleRouteCount (activity : Activity) (walk_graph drive_graph : Graph)
    (st : CacheState) : Option Route × CacheState :=
  match parsePhase activity with
  | .error _ => (none, st)
  | .ok (s, sc, e, ec, t) =>
    resolveStartPhase (pickGraph t walk_graph drive_graph) activity s e t sc ec st

/-- `compute_single_route` as its callers see it: a dict on success,
`None` on any error (a fresh default cache, which the function never
consults, plays no role in the result). -/
def compute_single_route (activity : Activity) (walk_graph drive_graph : Graph) :
    Option Route :=
  (computeSingleRouteCount activity walk_graph drive_graph ⟨[], 0⟩).1

/-! ## The scheduler (lines 81-104 and 210-214) -/

/-- The collection loop shared by both schedulers: compute each item in
the order given, append the non-`None` results, drop the failures. -/
def schedulerLoop (walk_graph drive_graph : Graph) : List Activity → List Route
  | [] => []
  | a :: rest =>
    match compute_single_route a walk_graph drive_graph with
    | some r => r :: schedulerLoop walk_graph drive_graph rest
    | none => schedulerLoop walk_graph drive_graph rest

/-- `parallel_preprocess_routes` (lines 81-104): the pool's workers each
run the pure `compute_single_route`; `as_completed` hands the results back
in a nondeterministic completion order, modelled by the caller supplying
the batch in an arbitrary permutation; non-`None` results are appended,
failures only tick the progress bar.  `max_workers` bounds the pool size
and does not influence which routes are produced. -/
def parallel_preprocess_routes (completionOrder : List Activity)
    (walk_graph drive_graph : Graph) (max_workers : ℕ) : List Route :=
  schedulerLoop walk_graph drive_graph completionOrder

/-- The sequential activity loop of `main` (lines 210-214). -/
def sequentialActivityRoutes (activities : List Activity) (walk_graph drive_graph : Graph) :
    List Route :=
  schedulerLoop walk_graph drive_graph activities

/-! ## The transition classifier (lines 169-197) -/

/-- Build the transition list (lines 169-174): one request per pair of
consecutive timeline points `(time, point)`, timed at the earlier point. -/
def buildTransitions : List (String × String) → List (String × String × String)
  | (t1, p1) :: (t2, p2) :: rest => (p1, p2, t1) :: buildTransitions ((t2, p2) :: rest)
  | _ => []

/-- Classify one transition (lines 186-197): label it
`"in a passenger vehicle"` when the computed distance strictly exceeds
1.0 km and `"walking"` otherwise, and emit the request dict.  `distKm`
stands for the external `geopy.distance.distance(..).km` great-circle
distance of `get_distance` (lines 176-181). -/
def classifyOne (distKm : String → String → ℚ) (tr : String × String × String) : Activity :=
  let ty := if (1 : ℚ) < distKm tr.1 tr.2.1 then "in a passenger vehicle" else "walking"
  [("start", tr.1), ("end", tr.2.1), ("time", tr.2.2), ("type", ty)]

/-- The classification loop over all transitions. -/
def classifyTransitions (distKm : String → String → ℚ)
    (trs : List (String × String × String)) : List Activity :=
  trs.map (classifyOne distKm)

/-! ## The record filter of `main` (lines 119-124) -/

/-- One raw export record's time window; the payload fields are not
involved in the filter. -/
structure RawRecord where
  startTime : String
  endTime : String
deriving DecidableEq, Repr

/-- Lines 123-124: `x.replace('Z', '+00:00')[:-6]` — rewrite every `Z` to
`+00:00`, then discard the last six characters. -/
def replaceZ : List Char → List Char
  | [] => []
  | c :: rest =>
    if c = 'Z' then '+' :: '0' :: '0' :: ':' :: '0' :: '0' :: replaceZ rest
    else c :: replaceZ rest

/-- The suffix-stripping normalisation applied to the time columns. -/
def normalizeTime (s : String) : String :=
  let cs := replaceZ s.data
  String.mk (cs.take (cs.length - 6))

/-- Lines 120-124 in source order: filter on the RAW time strings by
lexicographic comparison against the window bounds, THEN normalise the
time columns of the surviving records. -/
def filteredRecords (records : List RawRecord) (winStart winEnd : String) :
    List RawRecord :=
  (records.filter
      (fun r => pyStrLt winStart.data r.startTime.data
        && pyStrLt r.endTime.data winEnd.data)).map
    (fun r => { startTime := normalizeTime r.startTime, endTime := normalizeTime r.endTime })

/-- Following the spec's words for comparison with `filteredRecords`:
normalise the timestamps first and compare the NORMALISED times against
the window bounds. -/
def filteredRecordsSpecOrder (records : List RawRecord) (winStart winEnd : String) :
    List RawRecord :=
  (records.map
      (fun r => { startTime := normalizeTime r.startTime,
                  endTime := normalizeTime r.endTime : RawRecord })).filter
    (fun r => pyStrLt winStart.data r.startTime.data
      && pyStrLt r.endTime.data winEnd.data)

/-! ## The run boundary (`main`, lines 107-228) -/

/-- The route-bearing part of the output document (lines 220-226). -/
structure RunOutput where
  routes : List Route
  routes_timeline : List Route
deriving DecidableEq, Repr

/-- Modelled from the spec: network acquisition (`ox.graph_from_point`,
lines 111-112) is an external collaborator not under `src/`; per the spec
(§7, `EmptyNetworkError`) a network with zero nodes at load time is fatal
and aborts the run before any route computation starts. -/
def loadNetworks (walkG driveG : Graph) : Except PyErr (Graph × Graph) :=
  if walkG.nodes = [] ∨ driveG.nodes = [] then .error .emptyNetwork
  else .ok (walkG, driveG)

/-- The route-computing skeleton of `main`: load both networks (fatal on
an empty one), then run the parallel timeline batch (line 205, in some
completion order) and the sequential activity batch (lines 210-214). -/
def mainRun (walkG driveG : Graph) (timelineCompletion activityReqs : List Activity)
    (max_workers : ℕ) : Except PyErr RunOutput :=
  match loadNetworks walkG driveG with
  | .error er => .error er
  | .ok (wg, dg) =>
    .ok { routes_timeline := parallel_preprocess_routes timelineCompletion wg dg max_workers,
          routes := sequentialActivityRoutes activityReqs wg dg }

/-! ## Concrete objects for the closed witnesses and counterexamples -/

/-- A small connected two-node network used by the concrete witnesses. -/
def gW : Graph := ⟨[⟨1, 0, 0⟩, ⟨2, 10, 10⟩], [⟨1, 2, 5⟩, ⟨2, 1, 5⟩]⟩

/-- A network with zero nodes. -/
def gEmpty : Graph := ⟨[], []⟩

/-- A walking activity between the two nodes of `gW`. -/
def aW : Activity :=
  [("type", "walking"), ("time", "T1"), ("start", "a:0.0,0.0"), ("end", "b:10.0,10.0")]

/-- The route `compute_single_route` produces for `aW` over `gW`. -/
def rW : Route :=
  { type := "walking", time := "T1", start := "a:0.0,0.0", «end» := "b:10.0,10.0",
    coords := [(0, 0), (10, 10)] }

/-- An activity record with no keys at all: its computation fails. -/
def aBad : Activity := []

/-- An activity whose start and end encode the same exact coordinate key. -/
def aCE1 : Activity :=
  [("type", "walking"), ("time", "T"), ("start", "p:0.0,0.0"), ("end", "p:0.0,0.0")]

/-- An activity whose start point has three comma-separated components. -/
def aC6 : Activity :=
  [("type", "walking"), ("time", "T2"), ("start", "loc:1.0,2.0,3.0"), ("end", "b:10.0,10.0")]

/-- The route `compute_single_route` produces for `aC6` over `gW`. -/
def rC6 : Route :=
  { type := "walking", time := "T2", start := "loc:1.0,2.0,3.0", «end» := "b:10.0,10.0",
    coords := [(0, 0), (10, 10)] }

/-- A record whose raw `startTime` compares above the window start only
because of its `Z` suffix. -/
def recC5 : RawRecord := ⟨"2024-01-01T10:00:00Z", "2024-01-01T11:00:00Z"⟩

/-- Window bounds for the C5 counterexample. -/
def wsC5 : String := "2024-01-01T10:00:00"

/-- Window end for the C5 counterexample. -/
def weC5 : String := "2024-12-31T00:00:00"

/-- A constant distance oracle sitting exactly on the 1.0 km boundary. -/
def distOne : String → String → ℚ := fun _ _ => 1

/-! ## Helper lemmas -/

theorem dictGet_ok_iff {a : Activity} {k v : String} :
    dictGet a k = .ok v ↔ dictLookup a k = some v := by
  unfold dictGet
  cases h : dictLookup a k <;> simp

theorem dictGet_error_iff {a : Activity} {k : String} :
    dictGet a k = .error .keyError ↔ dictLookup a k = none := by
  unfold dictGet
  cases h : dictLookup a k <;> simp

theorem listGetE_ok_iff {l : List ℚ} {i : ℕ} {q : ℚ} :
    listGetE l i = .ok q ↔ l.get? i = some q := by
  unfold listGetE
  cases h : l.get? i <;> simp

theorem listGetE_error_iff {l : List ℚ} {i : ℕ} :
    listGetE l i = .error .indexError ↔ l.get? i = none := by
  unfold listGetE
  cases h : l.get? i <;> simp

theorem weightLe_refl (a : Option ℚ) : weightLe a a = true := by
  cases a <;> simp [weightLe]

theorem weightLe_trans {a b c : Option ℚ} (h1 : weightLe a b = true)
    (h2 : weightLe b c = true) : weightLe a c = true := by
  cases a <;> cases b <;> cases c <;> simp_all [weightLe]
  exact le_trans h1 h2

theorem weightLe_total (a b : Option ℚ) : weightLe a b = true ∨ weightLe b a = true := by
  cases a <;> cases b <;> simp [weightLe]
  exact le_total _ _

theorem minPath_eq_none {w : List ℕ → Option ℚ} {l : List (List ℕ)} :
    minPath w l = none ↔ l = [] := by
  cases l with
  | nil => simp [minPath]
  | cons hd tl =>
    unfold minPath
    cases h : minPath w tl <;> simp

theorem minPath_spec {w : List ℕ → Option ℚ} {l : List (List ℕ)} {p : List ℕ}
    (h : minPath w l = some p) : p ∈ l ∧ ∀ q ∈ l, weightLe (w p) (w q) = true := by
  induction l generalizing p with
  | nil => simp [minPath] at h
  | cons hd tl ih =>
    unfold minPath at h
    cases hmt : minPath w tl with
    | none =>
      rw [hmt] at h
      have h' : some hd = some p := h
      obtain rfl : hd = p := by injection h'
      obtain rfl : tl = [] := minPath_eq_none.mp hmt
      refine ⟨List.mem_cons_self _ _, ?_⟩
      intro q hq
      rcases List.mem_cons.mp hq with rfl | hq'
      · exact weightLe_refl _
      · simp at hq'
    | some q0 =>
      rw [hmt] at h
      have h' : some (if weightLe (w hd) (w q0) = true then hd else q0) = some p := h
      obtain ⟨hq0_mem, hq0_min⟩ := ih hmt
      by_cases hle : weightLe (w hd) (w q0) = true
      · rw [if_pos hle] at h'
        obtain rfl : hd = p := by injection h'
        refine ⟨List.mem_cons_self _ _, ?_⟩
        intro q hq
        rcases List.mem_cons.mp hq with rfl | hq'
        · exact weightLe_refl _
        · exact weightLe_trans hle (hq0_min q hq')
      · rw [if_neg hle] at h'
        obtain rfl : q0 = p := by injection h'
        refine ⟨List.mem_cons_of_mem _ hq0_mem, ?_⟩
        intro q hq
        rcases List.mem_cons.mp hq with rfl | hq'
        · rcases weightLe_total (w q0) (w q) with h'' | h''
          · exact h''
          · exact absurd h'' hle
        · exact hq0_min q hq'

theorem mem_foldr_append {α β : Type} (g : α → List β) (l : List α) (p : β) :
    p ∈ l.foldr (fun v acc => g v ++ acc) [] ↔ ∃ v ∈ l, p ∈ g v := by
  induction l with
  | nil => simp
  | cons hd tl ih => simp [ih]

theorem simplePathsAux_head_last {G : Graph} {t : ℕ} :
    ∀ {fuel u visited p}, p ∈ simplePathsAux G t fuel u visited →
      p.head? = some u ∧ p.getLast? = some t := by
  intro fuel
  induction fuel with
  | zero => intro u visited p h; simp [simplePathsAux] at h
  | succ n ih =>
    intro u visited p h
    unfold simplePathsAux at h
    by_cases hu : u = t
    · rw [if_pos hu] at h
      simp at h
      subst h
      subst hu
      exact ⟨rfl, rfl⟩
    · rw [if_neg hu] at h
      rw [mem_foldr_append] at h
      obtain ⟨v, _, hp⟩ := h
      rw [List.mem_map] at hp
      obtain ⟨p', hp', rfl⟩ := hp
      obtain ⟨hh, hl⟩ := ih hp'
      refine ⟨rfl, ?_⟩
      cases p' with
      | nil => simp at hh
      | cons x xs => rw [List.getLast?_cons_cons]; exact hl

theorem routeCoords_ok {G : Graph} :
    ∀ {p : List ℕ} {cs : List (ℚ × ℚ)}, routeCoords G p = .ok cs →
      cs.length = p.length ∧
      ∀ i (hi : i < p.length), ∃ nd, findNodeIn G.nodes (p.get ⟨i, hi⟩) = some nd ∧
        cs.get? i = some (nd.y, nd.x) := by
  intro p
  induction p with
  | nil =>
    intro cs h
    simp [routeCoords] at h
    subst h
    exact ⟨rfl, fun i hi => absurd hi (by simp)⟩
  | cons n rest ih =>
    intro cs h
    unfold routeCoords at h
    cases hf : findNodeIn G.nodes n with
    | none => rw [hf] at h; exact absurd h (by simp)
    | some nd =>
      rw [hf] at h
      cases hr : routeCoords G rest with
      | error er => rw [hr] at h; exact absurd h (by simp)
      | ok cs' =>
        rw [hr] at h
        obtain rfl : (nd.y, nd.x) :: cs' = cs := by injection h
        obtain ⟨hlen, hpt⟩ := ih hr
        refine ⟨by simp [hlen], ?_⟩
        intro i hi
        cases i with
        | zero => exact ⟨nd, hf, rfl⟩
        | succ j =>
          obtain ⟨nd', h1, h2⟩ := hpt j (Nat.lt_of_succ_lt_succ hi)
          exact ⟨nd', h1, h2⟩

theorem floatList_length {cs : List (List Char)} {xs : List ℚ}
    (h : floatList cs = .ok xs) : xs.length = cs.length := by
  induction cs generalizing xs with
  | nil => simp [floatList] at h; subst h; rfl
  | cons c rest ih =>
    unfold floatList at h
    cases h1 : pyFloatE c with
    | error er => rw [h1] at h; exact absurd h (by simp)
    | ok q =>
      rw [h1] at h
      cases h2 : floatList rest with
      | error er => rw [h2] at h; exact absurd h (by simp)
      | ok qs =>
        rw [h2] at h
        obtain rfl : q :: qs = xs := by injection h
        simp [ih h2]

theorem floatList_ok_iff {cs : List (List Char)} :
    (∃ xs, floatList cs = .ok xs) ↔ ∀ c ∈ cs, (pyFloat c).isSome := by
  induction cs with
  | nil => simp [floatList]
  | cons c rest ih =>
    constructor
    · intro ⟨xs, h⟩
      unfold floatList at h
      cases h1 : pyFloatE c with
      | error er => rw [h1] at h; exact absurd h (by simp)
      | ok q =>
        rw [h1] at h
        cases h2 : floatList rest with
        | error er => rw [h2] at h; exact absurd h (by simp)
        | ok qs =>
          intro x hx
          rcases List.mem_cons.mp hx with rfl | hx'
          · unfold pyFloatE at h1
            cases hpf : pyFloat x
            · rw [hpf] at h1; exact absurd h1 (by simp)
            · simp
          · exact ih.mp ⟨qs, h2⟩ x hx'
    · intro hall
      have hc : (pyFloat c).isSome := hall c (List.mem_cons_self _ _)
      obtain ⟨q, hq⟩ := Option.isSome_iff_exists.mp hc
      obtain ⟨qs, hqs⟩ := ih.mpr (fun x hx => hall x (List.mem_cons_of_mem _ hx))
      exact ⟨q :: qs, by simp [floatList, pyFloatE, hq, hqs]⟩

theorem ebind_ok_iff {α β : Type} {x : Except PyErr α} {f : α → Except PyErr β} {b : β} :
    ebind x f = .ok b ↔ ∃ v, x = .ok v ∧ f v = .ok b := by
  cases x <;> simp [ebind]

theorem parsePhase_ok {a : Activity} {s e t : String} {sc ec : List ℚ}
    (h : parsePhase a = .ok (s, sc, e, ec, t)) :
    dictLookup a "start" = some s ∧ decodePointCode s = .ok sc ∧
    dictLookup a "end" = some e ∧ decodePointCode e = .ok ec ∧
    dictLookup a "type" = some t := by
  unfold parsePhase at h
  obtain ⟨s', h1, h⟩ := ebind_ok_iff.mp h
  obtain ⟨sc', h2, h⟩ := ebind_ok_iff.mp h
  obtain ⟨e', h3, h⟩ := ebind_ok_iff.mp h
  obtain ⟨ec', h4, h⟩ := ebind_ok_iff.mp h
  obtain ⟨t', h5, h⟩ := ebind_ok_iff.mp h
  injection h with h'
  obtain ⟨rfl, rfl, rfl, rfl, rfl⟩ :
      s' = s ∧ sc' = sc ∧ e' = e ∧ ec' = ec ∧ t' = t := by
    exact ⟨congrArg Prod.fst h', congrArg (fun x => x.2.1) h',
      congrArg (fun x => x.2.2.1) h', congrArg (fun x => x.2.2.2.1) h',
      congrArg (fun x => x.2.2.2.2) h'⟩
  exact ⟨dictGet_ok_iff.mp h1, h2, dictGet_ok_iff.mp h3, h4, dictGet_ok_iff.mp h5⟩

theorem schedulerLoop_eq_filterMap (wg dg : Graph) (l : List Activity) :
    schedulerLoop wg dg l = l.filterMap (fun a => compute_single_route a wg dg) := by
  induction l with
  | nil => rfl
  | cons a rest ih =>
    unfold schedulerLoop
    cases h : compute_single_route a wg dg <;> simp [h, ih]

theorem resolveEndPhase_fst (G : Graph) (a : Activity) (s e t : String) (ec : List ℚ)
    (sN : ℕ) (st1 st1' : CacheState) :
    (resolveEndPhase G a s e t ec sN st1).1 = (resolveEndPhase G a s e t ec sN st1').1 := by
  unfold resolveEndPhase
  cases h2 : listGetE ec 0 with
  | error er => cases h3 : listGetE ec 1 <;> rfl
  | ok eLat =>
    cases h3 : listGetE ec 1 with
    | error er => rfl
    | ok eLon =>
      simp only [get_nearest_nodeCount]
      cases hm : nearest_nodes G eLat eLon <;> rfl

theorem resolveStartPhase_fst (G : Graph) (a : Activity) (s e t : String) (sc ec : List ℚ)
    (st st' : CacheState) :
    (resolveStartPhase G a s e t sc ec st).1 = (resolveStartPhase G a s e t sc ec st').1 := by
  unfold resolveStartPhase
  cases h0 : listGetE sc 0 with
  | error er => cases h1 : listGetE sc 1 <;> rfl
  | ok sLat =>
    cases h1 : listGetE sc 1 with
    | error er => rfl
    | ok sLon =>
      simp only [get_nearest_nodeCount]
      cases hn : nearest_nodes G sLat sLon with
      | none => rfl
      | some sN => exact resolveEndPhase_fst G a s e t ec sN _ _

theorem computeSingleRouteCount_fst (a : Activity) (wg dg : Graph) (st : CacheState) :
    (computeSingleRouteCount a wg dg st).1 = compute_single_route a wg dg := by
  unfold compute_single_route computeSingleRouteCount
  cases hp : parsePhase a with
  | error er => rfl
  | ok tup =>
    obtain ⟨s, sc, e, ec, t⟩ := tup
    exact resolveStartPhase_fst (pickGraph t wg dg) a s e t sc ec st ⟨[], 0⟩

theorem finishRoute_some {G : Graph} {a : Activity} {s e t : String} {sN eN : ℕ} {r : Route}
    (h : finishRoute G a s e t sN eN = some r) :
    ∃ p cs tm, shortest_path G sN eN = some p ∧ routeCoords G p = .ok cs ∧
      dictLookup a "time" = some tm ∧
      r = { type := t, time := tm, start := s, «end» := e, coords := cs } := by
  unfold finishRoute at h
  cases hsp : shortest_path G sN eN with
  | none => rw [hsp] at h; exact Option.noConfusion h
  | some route =>
    rw [hsp] at h
    have h' : (match routeCoords G route with
      | .error _ => none
      | .ok route_coords =>
        match dictGet a "time" with
        | .error _ => none
        | .ok tm =>
          some { type := t, time := tm, start := s, «end» := e,
                 coords := route_coords : Route }) = some r := h
    cases hrc : routeCoords G route with
    | error er => rw [hrc] at h'; exact Option.noConfusion h'
    | ok cs =>
      rw [hrc] at h'
      have h'' : (match dictGet a "time" with
        | .error _ => none
        | .ok tm =>
          some { type := t, time := tm, start := s, «end» := e, coords := cs : Route }) =
          some r := h'
      cases ht : dictGet a "time" with
      | error er => rw [ht] at h''; exact Option.noConfusion h''
      | ok tm =>
        rw [ht] at h''
        injection h'' with h3
        exact ⟨route, cs, tm, rfl, hrc, dictGet_ok_iff.mp ht, h3.symm⟩

theorem resolveEndPhase_some {G : Graph} {a : Activity} {s e t : String} {ec : List ℚ}
    {sN : ℕ} {st1 : CacheState} {r : Route}
    (h : (resolveEndPhase G a s e t ec sN st1).1 = some r) :
    ∃ eLat eLon eN, ec.get? 0 = some eLat ∧ ec.get? 1 = some eLon ∧
      nearest_nodes G eLat eLon = some eN ∧ finishRoute G a s e t sN eN = some r := by
  unfold resolveEndPhase at h
  cases h2 : listGetE ec 0 with
  | error er =>
    rw [h2] at h
    cases h3 : listGetE ec 1 <;> rw [h3] at h <;> exact Option.noConfusion h
  | ok eLat =>
    rw [h2] at h
    cases h3 : listGetE ec 1 with
    | error er => rw [h3] at h; exact Option.noConfusion h
    | ok eLon =>
      rw [h3] at h
      simp only [get_nearest_nodeCount] at h
      cases hm : nearest_nodes G eLat eLon with
      | none => rw [hm] at h; exact Option.noConfusion h
      | some eN =>
        rw [hm] at h
        have h' : finishRoute G a s e t sN eN = some r := h
        exact ⟨eLat, eLon, eN, listGetE_ok_iff.mp h2, listGetE_ok_iff.mp h3, hm, h'⟩

theorem resolveStartPhase_some {G : Graph} {a : Activity} {s e t : String} {sc ec : List ℚ}
    {st : CacheState} {r : Route}
    (h : (resolveStartPhase G a s e t sc ec st).1 = some r) :
    ∃ sLat sLon sN, sc.get? 0 = some sLat ∧ sc.get? 1 = some sLon ∧
      nearest_nodes G sLat sLon = some sN ∧
      ∃ st1, (resolveEndPhase G a s e t ec sN st1).1 = some r := by
  unfold resolveStartPhase at h
  cases h0 : listGetE sc 0 with
  | error er =>
    rw [h0] at h
    cases h1 : listGetE sc 1 <;> rw [h1] at h <;> exact Option.noConfusion h
  | ok sLat =>
    rw [h0] at h
    cases h1 : listGetE sc 1 with
    | error er => rw [h1] at h; exact Option.noConfusion h
    | ok sLon =>
      rw [h1] at h
      simp only [get_nearest_nodeCount] at h
      cases hn : nearest_nodes G sLat sLon with
      | none => rw [hn] at h; exact Option.noConfusion h
      | some sN =>
        rw [hn] at h
        have h' : (resolveEndPhase G a s e t ec sN ⟨st.cache, st.searches + 1⟩).1 = some r := h
        exact ⟨sLat, sLon, sN, listGetE_ok_iff.mp h0, listGetE_ok_iff.mp h1, hn,
          ⟨st.cache, st.searches + 1⟩, h'⟩

/-- Structure of every successful `compute_single_route` result: the
parsed fields, the indexed coordinates, the two resolved nearest nodes
and the finished route. -/
theorem compute_success_struct {a : Activity} {wg dg : Graph} {r : Route}
    (h : compute_single_route a wg dg = some r) :
    ∃ s sc e ec t sLat sLon eLat eLon sN eN,
      parsePhase a = .ok (s, sc, e, ec, t) ∧
      sc.get? 0 = some sLat ∧ sc.get? 1 = some sLon ∧
      ec.get? 0 = some eLat ∧ ec.get? 1 = some eLon ∧
      nearest_nodes (pickGraph t wg dg) sLat sLon = some sN ∧
      nearest_nodes (pickGraph t wg dg) eLat eLon = some eN ∧
      finishRoute (pickGraph t wg dg) a s e t sN eN = some r := by
  unfold compute_single_route computeSingleRouteCount at h
  cases hp : parsePhase a with
  | error er => rw [hp] at h; exact Option.noConfusion h
  | ok tup =>
    rw [hp] at h
    obtain ⟨s, sc, e, ec, t⟩ := tup
    have h' : (resolveStartPhase (pickGraph t wg dg) a s e t sc ec ⟨[], 0⟩).1 = some r := h
    obtain ⟨sLat, sLon, sN, h0, h1, hn, st1, h2⟩ := resolveStartPhase_some h'
    obtain ⟨eLat, eLon, eN, h3, h4, hm, h5⟩ := resolveEndPhase_some h2
    exact ⟨s, sc, e, ec, t, sLat, sLon, eLat, eLon, sN, eN, rfl, h0, h1, h3, h4, hn, hm, h5⟩

/-! ## Claim theorems -/

/-- C2: for every batch (in any completion order), a request whose
computation fails is dropped and the batch runs to completion: the
scheduler's output contains exactly the successfully computed routes of
the batch, and no per-item failure aborts the batch. -/
theorem scheduler_output_iff_success (completion acts : List Activity) (wg dg : Graph)
    (mw : ℕ) (hperm : completion.Perm acts) (r : Route) :
    r ∈ parallel_preprocess_routes completion wg dg mw ↔
      ∃ a ∈ acts, compute_single_route a wg dg = some r := by
  unfold parallel_preprocess_routes
  rw [schedulerLoop_eq_filterMap, List.mem_filterMap]
  constructor
  · rintro ⟨a, ha, hr⟩
    exact ⟨a, hperm.mem_iff.mp ha, hr⟩
  · rintro ⟨a, ha, hr⟩
    exact ⟨a, hperm.mem_iff.mpr ha, hr⟩

/-- Witness for C2: in a batch holding one failing record and one good
one, the good route is exactly what comes out. -/
theorem scheduler_output_iff_success_witness :
    ([aBad, aW].Perm [aBad, aW]) ∧
    (rW ∈ parallel_preprocess_routes [aBad, aW] gW gW 4 ↔
      ∃ a ∈ [aBad, aW], compute_single_route a gW gW = some rW) :=
  ⟨List.Perm.refl _,
    scheduler_output_iff_success [aBad, aW] [aBad, aW] gW gW 4 (List.Perm.refl _) rW⟩

/-- C4: a network with zero nodes is fatal — the run aborts with
`EmptyNetworkError` before any route computation starts, instead of the
condition being handled as a recoverable per-item error. -/
theorem empty_network_fatal (walkG driveG : Graph) (tl acts : List Activity) (mw : ℕ)
    (h : walkG.nodes = [] ∨ driveG.nodes = []) :
    mainRun walkG driveG tl acts mw = .error .emptyNetwork := by
  unfold mainRun loadNetworks
  rw [if_pos h]

/-- Witness for C4: loading with an empty walk network aborts the run. -/
theorem empty_network_fatal_witness :
    (gEmpty.nodes = [] ∨ gW.nodes = []) ∧
    mainRun gEmpty gW [aW] [aW] 3 = .error .emptyNetwork :=
  ⟨.inl rfl, empty_network_fatal gEmpty gW [aW] [aW] 3 (.inl rfl)⟩

/-- C8: every produced Route carries the request's `type`, `time`,
`start` and `end` values verbatim — the mode string is not renormalised
and the endpoint strings stay in their original encoded form. -/
theorem route_fields_verbatim (a : Activity) (wg dg : Graph) (r : Route)
    (h : compute_single_route a wg dg = some r) :
    dictLookup a "type" = some r.type ∧ dictLookup a "time" = some r.time ∧
    dictLookup a "start" = some r.start ∧ dictLookup a "end" = some r.«end» := by
  obtain ⟨s, sc, e, ec, t, sLat, sLon, eLat, eLon, sN, eN, hp, _, _, _, _, _, _, hfin⟩ :=
    compute_success_struct h
  obtain ⟨hs, _, he, _, ht⟩ := parsePhase_ok hp
  obtain ⟨p, cs, tm, _, _, htime, hr⟩ := finishRoute_some hfin
  subst hr
  exact ⟨ht, htime, hs, he⟩

/-- Witness for C8: the concrete route for `aW` carries its fields. -/
theorem route_fields_verbatim_witness :
    compute_single_route aW gW gW = some rW ∧
    (dictLookup aW "type" = some rW.type ∧ dictLookup aW "time" = some rW.time ∧
     dictLookup aW "start" = some rW.start ∧ dictLookup aW "end" = some rW.«end») :=
  ⟨by decide, route_fields_verbatim aW gW gW rW (by decide)⟩

/-- C9: running a batch sequentially and running it under the bounded
parallel scheduler (any completion order, any `max_workers`) produce the
same Route multiset. -/
theorem parallel_seq_equiv (acts completion : List Activity) (wg dg : Graph) (mw : ℕ)
    (hperm : completion.Perm acts) :
    (parallel_preprocess_routes completion wg dg mw).Perm
      (sequentialActivityRoutes acts wg dg) := by
  unfold parallel_preprocess_routes sequentialActivityRoutes
  rw [schedulerLoop_eq_filterMap, schedulerLoop_eq_filterMap]
  exact hperm.filterMap _

/-- Witness for C9: a two-element batch in swapped completion order
yields the same routes up to ordering as the sequential run. -/
theorem parallel_seq_equiv_witness :
    ([aW, aBad].Perm [aBad, aW]) ∧
    (parallel_preprocess_routes [aW, aBad] gW gW 7).Perm
      (sequentialActivityRoutes [aBad, aW] gW gW) :=
  ⟨List.Perm.swap aBad aW [],
    parallel_seq_equiv [aBad, aW] [aW, aBad] gW gW 7 (List.Perm.swap aBad aW [])⟩

/-- C10: `compute_single_route` is total at its boundary: it returns a
route or `None` and never propagates an exception, in particular for
inputs missing the `start`, `end` or `type` keys. -/
theorem compute_total_missing_keys (a : Activity) (wg dg : Graph) :
    (compute_single_route a wg dg = none ∨ ∃ r, compute_single_route a wg dg = some r) ∧
    ((dictLookup a "start" = none ∨ dictLookup a "end" = none ∨
        dictLookup a "type" = none) →
      compute_single_route a wg dg = none) := by
  constructor
  · cases h : compute_single_route a wg dg
    · exact .inl rfl
    · exact .inr ⟨_, rfl⟩
  · intro hmiss
    cases h : compute_single_route a wg dg with
    | none => rfl
    | some r =>
      obtain ⟨s, sc, e, ec, t, _, _, _, _, _, _, hp, _⟩ := compute_success_struct h
      obtain ⟨hs, _, he, _, ht⟩ := parsePhase_ok hp
      rcases hmiss with hm | hm | hm <;> simp_all

/-- Witness for C10: the empty record is dropped, not fatal. -/
theorem compute_total_missing_keys_witness :
    dictLookup aBad "start" = none ∧ compute_single_route aBad gW gW = none :=
  ⟨rfl, (compute_total_missing_keys aBad gW gW).2 (.inl rfl)⟩

/-- C3: the transition classifier labels a pair of consecutive timeline
points `"in a passenger vehicle"` (Driving) exactly when the computed
straight-line distance strictly exceeds 1.0 km, and `"walking"`
otherwise; at exactly 1.0 km the label is `"walking"`. -/
theorem classify_threshold (distKm : String → String → ℚ)
    (trs : List (String × String × String)) (tr : String × String × String)
    (htr : tr ∈ trs) :
    classifyOne distKm tr ∈ classifyTransitions distKm trs ∧
    (dictLookup (classifyOne distKm tr) "type" = some "in a passenger vehicle" ↔
      1 < distKm tr.1 tr.2.1) ∧
    (distKm tr.1 tr.2.1 = 1 → dictLookup (classifyOne distKm tr) "type" = some "walking") := by
  refine ⟨List.mem_map.mpr ⟨tr, htr, rfl⟩, ?_, ?_⟩
  · unfold classifyOne
    by_cases hd : (1 : ℚ) < distKm tr.1 tr.2.1
    · rw [if_pos hd]
      exact iff_of_true rfl hd
    · rw [if_neg hd]
      refine iff_of_false ?_ hd
      intro hcontra
      have h' : some ("walking" : String) = some "in a passenger vehicle" := hcontra
      have : ("walking" : String) = "in a passenger vehicle" := by injection h'
      exact absurd this (by decide)
  · intro h1
    unfold classifyOne
    rw [h1, if_neg (lt_irrefl (1 : ℚ))]
    rfl

/-- Witness for C3: a transition at exactly 1.0 km classifies as walking. -/
theorem classify_threshold_witness :
    (("p1", "p2", "t0") ∈ [("p1", "p2", "t0")]) ∧
    dictLookup (classifyOne distOne ("p1", "p2", "t0")) "type" = some "walking" :=
  ⟨List.mem_singleton.mpr rfl,
    (classify_threshold distOne [("p1", "p2", "t0")] ("p1", "p2", "t0")
      (List.mem_singleton.mpr rfl)).2.2 rfl⟩

/-- C5 (counterexample): the code filters on the RAW time strings and
normalises afterwards, so a record whose `startTime` exceeds the window
start only through its `Z` suffix is kept even though its normalised
start time is not strictly after the window start — against the claim
that normalisation happens before the comparison. -/
theorem filter_normalization_order_counterexample :
    filteredRecords [recC5] wsC5 weC5 =
      [{ startTime := "2024-01-01T10:00:00", endTime := "2024-01-01T11:00:00" }] ∧
    pyStrLt wsC5.data (normalizeTime recC5.startTime).data = false ∧
    filteredRecordsSpecOrder [recC5] wsC5 weC5 = [] := by decide

/-- C5 (amended): a record is kept iff its RAW `startTime` is
lexicographically strictly above the window start and its RAW `endTime`
strictly below the window end; the suffix-stripping normalisation
(`Z` to `+00:00`, then dropping the final six characters) is applied to
the kept records only after this comparison. -/
theorem filter_raw_then_normalize (records : List RawRecord) (winStart winEnd : String)
    (r : RawRecord) :
    r ∈ filteredRecords records winStart winEnd ↔
      ∃ r₀ ∈ records, pyStrLt winStart.data r₀.startTime.data = true ∧
        pyStrLt r₀.endTime.data winEnd.data = true ∧
        r = { startTime := normalizeTime r₀.startTime,
              endTime := normalizeTime r₀.endTime } := by
  unfold filteredRecords
  rw [List.mem_map]
  constructor
  · rintro ⟨r₀, hr₀, hmap⟩
    rw [List.mem_filter] at hr₀
    obtain ⟨hmem, hcond⟩ := hr₀
    rw [Bool.and_eq_true] at hcond
    exact ⟨r₀, hmem, hcond.1, hcond.2, hmap.symm⟩
  · rintro ⟨r₀, hmem, h1, h2, rfl⟩
    exact ⟨r₀, List.mem_filter.mpr ⟨hmem, by rw [Bool.and_eq_true]; exact ⟨h1, h2⟩⟩, rfl⟩

/-- C1 (counterexample): during route computation the cache ensures
nothing — a request whose start and end carry the identical exact
`(lat, lon)` key still triggers two nearest-neighbour searches (the
claim's bound would allow at most one), because `compute_single_route`
calls the uncached `get_nearest_node`. -/
theorem cache_unused_counterexample :
    dictLookup aCE1 "start" = dictLookup aCE1 "end" ∧
    (computeSingleRouteCount aCE1 gW gW ⟨[], 0⟩).2.searches = 2 ∧
    ¬((computeSingleRouteCount aCE1 gW gW ⟨[], 0⟩).2.searches ≤ 1) := by decide

/-- C1 (amended): nearest-node resolution is deterministic — the resolved
node depends only on the network and the point, never on the cache state —
and the `cached_nearest_node` helper does memoize (after a successful
resolution a repeated call returns the same node without searching); but
`compute_single_route` resolves through the uncached `get_nearest_node`,
which performs exactly one fresh nearest-neighbour search per call and
neither reads nor writes the cache, so during route computation the
search runs once per endpoint resolution even for repeated identical
keys. -/
theorem resolver_deterministic_uncached :
    (∀ (G : Graph) (lat lon : ℚ) (st st' : CacheState),
      (get_nearest_nodeCount G lat lon st).1 = (get_nearest_nodeCount G lat lon st').1) ∧
    (∀ (G : Graph) (lat lon : ℚ) (st : CacheState),
      (get_nearest_nodeCount G lat lon st).2.searches = st.searches + 1 ∧
      (get_nearest_nodeCount G lat lon st).2.cache = st.cache) ∧
    (∀ (G : Graph) (lat lon : ℚ) (st : CacheState) (n : ℕ) (st1 : CacheState),
      cached_nearest_node G lat lon st = (some n, st1) →
      cached_nearest_node G lat lon st1 = (some n, st1)) ∧
    (∀ (a : Activity) (wg dg : Graph) (st st' : CacheState),
      (computeSingleRouteCount a wg dg st).1 = (computeSingleRouteCount a wg dg st').1) := by
  refine ⟨fun G lat lon st st' => rfl, fun G lat lon st => ⟨rfl, rfl⟩, ?_, ?_⟩
  · intro G lat lon st n st1 h
    unfold cached_nearest_node at h ⊢
    cases hl : cacheLookup st.cache (lat, lon) with
    | some n0 =>
      rw [hl] at h
      have h1 : some n0 = some n := congrArg Prod.fst h
      have h2 : st = st1 := congrArg Prod.snd h
      obtain rfl : n0 = n := by injection h1
      subst h2
      rw [hl]
    | none =>
      rw [hl] at h
      cases hnn : nearest_nodes G lat lon with
      | none =>
        rw [hnn] at h
        have h1 : (none : Option ℕ) = some n := congrArg Prod.fst h
        exact Option.noConfusion h1
      | some n0 =>
        rw [hnn] at h
        have h1 : some n0 = some n := congrArg Prod.fst h
        have h2 : (⟨((lat, lon), n0) :: st.cache, st.searches + 1⟩ : CacheState) = st1 :=
          congrArg Prod.snd h
        obtain rfl : n0 = n := by injection h1
        subst h2
        have hhit : cacheLookup (((lat, lon), n0) :: st.cache) (lat, lon) = some n0 := by
          unfold cacheLookup
          rw [if_pos rfl]
        rw [hhit]
  · intro a wg dg st st'
    rw [computeSingleRouteCount_fst, computeSingleRouteCount_fst]

/-- Witness for C1: a concrete hit of the memoizing helper after its
first successful resolution performs no further search. -/
theorem resolver_deterministic_uncached_witness :
    cached_nearest_node gW 0 0 ⟨[], 0⟩ = (some 1, ⟨[((0, 0), 1)], 1⟩) ∧
    cached_nearest_node gW 0 0 ⟨[((0, 0), 1)], 1⟩ = (some 1, ⟨[((0, 0), 1)], 1⟩) :=
  ⟨by decide,
    resolver_deterministic_uncached.2.2.1 gW 0 0 ⟨[], 0⟩ 1 ⟨[((0, 0), 1)], 1⟩ (by decide)⟩

/-- C6 (counterexample): a start point whose comma split has three
components is NOT rejected — the code decodes all three floats, uses the
first two, and the owning request still produces a route — against the
claim that a wrong-arity split always fails and drops the request.  (The
spec-worded decoder rejects the same string.) -/
theorem decode_arity_counterexample :
    decodePointSpec "loc:1.0,2.0,3.0" = none ∧
    decodePointCode "loc:1.0,2.0,3.0" = .ok [1, 2, 3] ∧
    compute_single_route aC6 gW gW = some rC6 := by decide

/-- C6 (amended): point decoding splits on every `:` and takes the
segment at index 1, then splits that segment on `,` and parses every
component as a float; it fails (and the owning request is dropped) when
there is no colon or when some component does not parse, and a comma
split with fewer than two components also gets the request dropped at the
coordinate indexing — but a comma split with MORE than two components
decodes successfully, the extra components being ignored. -/
theorem decode_split_and_drop :
    (∀ s : String, (splitBy (fun c => c == ':') s.data).get? 1 = none →
      decodePointCode s = .error .indexError) ∧
    (∀ (s : String) (rest : List Char),
      (splitBy (fun c => c == ':') s.data).get? 1 = some rest →
      ((∃ xs, decodePointCode s = .ok xs ∧
          xs.length = (splitBy (fun c => c == ',') rest).length) ↔
        ∀ c ∈ splitBy (fun c => c == ',') rest, (pyFloat c).isSome)) ∧
    (∀ (a : Activity) (wg dg : Graph) (sv : String) (er : PyErr),
      dictLookup a "start" = some sv → decodePointCode sv = .error er →
      compute_single_route a wg dg = none) ∧
    (∀ (a : Activity) (wg dg : Graph) (sv : String) (sc : List ℚ),
      dictLookup a "start" = some sv → decodePointCode sv = .ok sc → sc.length < 2 →
      compute_single_route a wg dg = none) := by
  refine ⟨?_, ?_, ?_, ?_⟩
  · intro s h
    unfold decodePointCode
    rw [h]
  · intro s rest h
    unfold decodePointCode
    rw [h]
    constructor
    · rintro ⟨xs, hok, _⟩
      exact floatList_ok_iff.mp ⟨xs, hok⟩
    · intro hall
      obtain ⟨xs, hok⟩ := floatList_ok_iff.mpr hall
      exact ⟨xs, hok, floatList_length hok⟩
  · intro a wg dg sv er hs hdec
    cases h : compute_single_route a wg dg with
    | none => rfl
    | some r =>
      obtain ⟨s, sc, e, ec, t, _, _, _, _, _, _, hp, _⟩ := compute_success_struct h
      obtain ⟨hs', hdec', _⟩ := parsePhase_ok hp
      rw [hs] at hs'
      obtain rfl : sv = s := by injection hs'
      rw [hdec] at hdec'
      exact Except.noConfusion hdec'
  · intro a wg dg sv sc hs hdec hlen
    cases h : compute_single_route a wg dg with
    | none => rfl
    | some r =>
      obtain ⟨s, sc', e, ec, t, sLat, sLon, _, _, _, _, hp, _, h1, _⟩ :=
        compute_success_struct h
      obtain ⟨hs', hdec', _⟩ := parsePhase_ok hp
      rw [hs] at hs'
      obtain rfl : sv = s := by injection hs'
      rw [hdec] at hdec'
      obtain rfl : sc = sc' := by injection hdec'
      have hnone : sc.get? 1 = none := List.get?_eq_none.mpr (by omega)
      rw [hnone] at h1
      exact Option.noConfusion h1

/-- Witness for C6: a string with no colon raises at the index access. -/
theorem decode_split_and_drop_witness :
    (splitBy (fun c => c == ':') "nocolon".data).get? 1 = none ∧
    decodePointCode "nocolon" = .error .indexError :=
  ⟨by decide, decode_split_and_drop.1 "nocolon" (by decide)⟩

/-- C7: every produced Route has at least one coordinate, and its
`coords` sequence is exactly the node coordinates, in traversal order,
of a path that starts at the node nearest the request's start point,
ends at the node nearest its end point, and has minimal total edge
length among the enumerated simple paths between those nodes. -/
theorem route_coords_along_shortest_path (a : Activity) (wg dg : Graph) (r : Route)
    (h : compute_single_route a wg dg = some r) :
    1 ≤ r.coords.length ∧
    ∃ s sc e ec t sLat sLon eLat eLon sN eN p,
      parsePhase a = .ok (s, sc, e, ec, t) ∧
      sc.get? 0 = some sLat ∧ sc.get? 1 = some sLon ∧
      ec.get? 0 = some eLat ∧ ec.get? 1 = some eLon ∧
      get_nearest_node (pickGraph t wg dg) sLat sLon = some sN ∧
      get_nearest_node (pickGraph t wg dg) eLat eLon = some eN ∧
      shortest_path (pickGraph t wg dg) sN eN = some p ∧
      p.head? = some sN ∧ p.getLast? = some eN ∧
      r.coords.length = p.length ∧
      (∀ i (hi : i < p.length), ∃ nd,
        findNodeIn (pickGraph t wg dg).nodes (p.get ⟨i, hi⟩) = some nd ∧
        r.coords.get? i = some (nd.y, nd.x)) ∧
      (∀ q ∈ simplePathsAux (pickGraph t wg dg) eN
          ((pickGraph t wg dg).nodes.length + 1) sN [],
        weightLe (pathWeight (pickGraph t wg dg) p)
          (pathWeight (pickGraph t wg dg) q) = true) := by
  obtain ⟨s, sc, e, ec, t, sLat, sLon, eLat, eLon, sN, eN, hp, h0, h1, h3, h4, hn, hm, hfin⟩ :=
    compute_success_struct h
  obtain ⟨p, cs, tm, hsp, hrc, htime, hr⟩ := finishRoute_some hfin
  subst hr
  obtain ⟨hclen, hcpt⟩ := routeCoords_ok hrc
  have hsp' := hsp
  unfold shortest_path at hsp'
  obtain ⟨hmem, hmin⟩ := minPath_spec hsp'
  obtain ⟨hhead, hlast⟩ := simplePathsAux_head_last hmem
  have hplen : 1 ≤ p.length := by
    cases p with
    | nil => exact absurd hhead (by simp)
    | cons x xs => simp
  refine ⟨by rw [hclen]; exact hplen,
    s, sc, e, ec, t, sLat, sLon, eLat, eLon, sN, eN, p,
    hp, h0, h1, h3, h4, hn, hm, hsp, hhead, hlast, hclen, hcpt, hmin⟩

/-- Witness for C7: the concrete route for `aW` is non-degenerate. -/
theorem route_coords_along_shortest_path_witness :
    compute_single_route aW gW gW = some rW ∧ 1 ≤ rW.coords.length :=
  ⟨by decide, (route_coords_along_shortest_path aW gW gW rW (by decide)).1⟩

example : pyFloat "10.0".data = some 10 := by decide
example : pyFloat "-9.150".data = some (mkRat (-183) 20) := by decide
example : pyFloat "1e2".data = some 100 := by decide
example : pyFloat "1.5e-1".data = some (mkRat 3 20) := by decide
example : pyFloat "abc".data = none := by decide
example : pyFloat "".data = none := by decide
example : decodePointCode "loc:1.0,2.0,3.0" = .ok [1, 2, 3] := by decide
example : decodePointSpec "loc:1.0,2.0,3.0" = none := by decide
example : decodePointCode "nocolon" = .error .indexError := by decide
example : decodePointCode "a:b:1,2" = .error .valueError := by decide
example : decodePointSpec "a:1,2:x" = none := by decide
example : decodePointCode "a:1,2:x" = .ok [1, 2] := by decide
